import Mathlib

/-!
Shallow embedding of the MindMeld server's session/XP/badge pipeline,
token-rotation flow, leaderboard aggregation and analytics trend
computation, translated from:
  - src/server/routes/sessions.js   (POST / handler, checkAndAwardBadges,
                                     calculatePerformanceTrends)
  - src/server/models/RefreshToken.js (User schema methods addXP,
                                     awardBadge, updateStreak)
  - src/server/middlewares/refresh.js and the token utilities
                                    (verifyRefreshToken, blacklistRefreshToken)
  - src/server/routes/ml3.js        (GET /leaderboard aggregation)

JavaScript numbers are modelled as rationals (ℚ); `Math.floor` is `Int.floor`,
`Math.round` is Mathlib's `round` (both round halves toward +∞), and MongoDB's
`$round` (round half to even) is modelled explicitly as `mongoRound`.
-/

namespace MindMeld

/-- A badge record as stored in `user.badges` (id, name, description;
`earnedAt` timestamps are irrelevant to the verified properties). -/
structure Badge where
  id : String
  name : String
  description : String
deriving Repr, DecidableEq

/-- The `stats` subdocument of the User schema. `gamesPlayed` is the
Map gameType → count, modelled as an association list. -/
structure UserStats where
  totalSessions : Nat
  totalPlayTime : Int
  averageScore : ℚ
  bestStreak : Nat
  gamesPlayed : List (String × Nat)
deriving Repr, DecidableEq

/-- The mutable aggregate state of a User document (the fields the
session pipeline reads or writes). `xp` is a JS number (ℚ); `level`
is `Math.floor(xp/1000)+1`-shaped, so an integer. `lastActiveDate`
is a millisecond timestamp. -/
structure User where
  level : Int
  xp : ℚ
  streak : Nat
  lastActiveDate : Int
  badges : List Badge
  stats : UserStats
deriving Repr, DecidableEq

/-- A fresh user as created at registration: schema defaults
level=1, xp=0, streak=0, empty badges, zeroed stats. -/
def initialUser (lastActive : Int) : User :=
  { level := 1
    xp := 0
    streak := 0
    lastActiveDate := lastActive
    badges := []
    stats :=
      { totalSessions := 0
        totalPlayTime := 0
        averageScore := 0
        bestStreak := 0
        gamesPlayed := [] } }

/-- `userSchema.methods.addXP`:
`this.xp += points; const newLevel = Math.floor(this.xp / 1000) + 1;
if (newLevel > this.level) { this.level = newLevel; return {leveledUp:true,newLevel}; }
return {leveledUp:false};` -/
def addXP (u : User) (points : ℚ) : User × Bool :=
  let xp := u.xp + points
  let newLevel : Int := ⌊xp / 1000⌋ + 1
  if newLevel > u.level then
    ({ u with xp := xp, level := newLevel }, true)
  else
    ({ u with xp := xp }, false)

/-- `userSchema.methods.awardBadge`: push the badge and return true
unless a badge with the same id already exists (then return false). -/
def awardBadge (u : User) (badgeData : Badge) : User × Bool :=
  if u.badges.any (fun badge => badge.id == badgeData.id) then
    (u, false)
  else
    ({ u with badges := u.badges ++ [badgeData] }, true)

/-- `userSchema.methods.updateStreak` (defined on the model but never
invoked by any route in the repository). `today` is a millisecond
timestamp; `daysDiff = Math.floor((today - lastActive) / 86400000)`. -/
def updateStreak (u : User) (today : Int) : User :=
  let daysDiff : Int := (today - u.lastActiveDate).fdiv 86400000
  let u' :=
    if daysDiff = 1 then
      { u with streak := u.streak + 1,
               stats := { u.stats with bestStreak := max u.stats.bestStreak (u.streak + 1) } }
    else if daysDiff > 1 then
      { u with streak := 1 }
    else u
  { u' with lastActiveDate := today }

/-- The body of a `POST /api/sessions` request (the validated fields). -/
structure SessionInput where
  gameType : String
  domain : String
  difficulty : String
  duration : Int
  score : ℚ
  accuracy : ℚ
deriving Repr, DecidableEq

/-- The 8 gameType enum values of the express-validator `isIn` check. -/
def gameTypes : List String :=
  ["n-back", "dual-task", "flanker", "attention-network",
   "simple-reaction", "choice-reaction", "ravens-matrices", "tower-hanoi"]

/-- The 4 cognitive-domain enum values. -/
def domains : List String :=
  ["working_memory", "attention", "processing_speed", "problem_solving"]

/-- The difficulty enum values. -/
def difficulties : List String := ["easy", "medium", "hard"]

/-- The express-validator chain on `POST /api/sessions`: each failing
validator contributes one entry (its field name) to `errors.array()`,
in declaration order. -/
def validationErrors (s : SessionInput) : List String :=
  (if s.gameType ∈ gameTypes then [] else ["gameType"]) ++
  (if s.domain ∈ domains then [] else ["domain"]) ++
  (if s.difficulty ∈ difficulties then [] else ["difficulty"]) ++
  (if 1 ≤ s.duration then [] else ["duration"]) ++
  (if 0 ≤ s.score ∧ s.score ≤ 100 then [] else ["score"]) ++
  (if 0 ≤ s.accuracy ∧ s.accuracy ≤ 100 then [] else ["accuracy"])

/-- XP for a session: `Math.floor(sessionData.score / 10) * 10 + 50`. -/
def xpGained (score : ℚ) : ℚ := ((⌊score / 10⌋ * 10 + 50 : Int) : ℚ)

/-- association-list read of the gamesPlayed Map (`.get(k) || 0`). -/
def gamesPlayedGet (m : List (String × Nat)) (k : String) : Nat :=
  match m.find? (fun p => p.1 == k) with
  | some p => p.2
  | none => 0

/-- association-list write of the gamesPlayed Map (`.set(k, v)`). -/
def gamesPlayedSet (m : List (String × Nat)) (k : String) (v : Nat) :
    List (String × Nat) :=
  if m.any (fun p => p.1 == k) then
    m.map (fun p => if p.1 == k then (k, v) else p)
  else
    m ++ [(k, v)]

/-- The fixed badge definitions used by `checkAndAwardBadges`. -/
def firstSessionBadge : Badge :=
  ⟨"first-session", "Getting Started",
   "Completed your first cognitive training session"⟩

/-- The perfect-score badge. -/
def perfectScoreBadge : Badge :=
  ⟨"perfect-score", "Perfect Performance",
   "Achieved a perfect score in a training session"⟩

/-- Session-count milestone badge for milestone `n`. -/
def sessionsBadge (n : Nat) : Badge :=
  ⟨"sessions-" ++ toString n, toString n ++ " Sessions",
   "Completed " ++ toString n ++ " training sessions"⟩

/-- Streak milestone badge for streak `n`. -/
def streakBadge (n : Nat) : Badge :=
  ⟨"streak-" ++ toString n, toString n ++ "-Day Streak",
   "Maintained a " ++ toString n ++ "-day training streak"⟩

/-- The `badges` candidate list built by `checkAndAwardBadges(user, session)`
before the award loop (in the source's push order). -/
def candidateBadges (u : User) (sessionScore : ℚ) : List Badge :=
  (if u.stats.totalSessions = 1 then [firstSessionBadge] else []) ++
  (if sessionScore = 100 then [perfectScoreBadge] else []) ++
  (if u.stats.totalSessions ∈ [10, 25, 50, 100]
   then [sessionsBadge u.stats.totalSessions] else []) ++
  (if u.streak ∈ [7, 14, 30] then [streakBadge u.streak] else [])

/-- One iteration of the award loop of `checkAndAwardBadges`:
`const awarded = user.awardBadge(badge); if (awarded) user.addXP(100);`. -/
def awardStep (u : User) (badge : Badge) : User :=
  let r := awardBadge u badge
  if r.2 then (addXP r.1 100).1 else r.1

/-- The award loop of `checkAndAwardBadges`: for each candidate badge,
award it and grant a flat +100 XP bonus when `awardBadge` returned true. -/
def awardLoop (u : User) (bs : List Badge) : User :=
  bs.foldl awardStep u

/-- `checkAndAwardBadges(user, session)`. -/
def checkAndAwardBadges (u : User) (sessionScore : ℚ) : User :=
  awardLoop u (candidateBadges u sessionScore)

/-- Result of a `POST /api/sessions` request together with the post-request
persistent state (the User document and the stored Session list). -/
structure PostResult where
  status : Nat
  errors : List String
  user : User
  sessions : List SessionInput
deriving Repr, DecidableEq

/-- The stats/XP/badge update block of the POST handler (lines 42-61 of
sessions.js), applied to a validated input:
`totalSessions += 1; totalPlayTime += duration;
totalScore = averageScore*(totalSessions-1) + score;
averageScore = totalScore/totalSessions; gamesPlayed bump;
addXP(floor(score/10)*10+50); checkAndAwardBadges`. -/
def applySessionToUser (u : User) (inp : SessionInput) : User :=
  let totalSessions := u.stats.totalSessions + 1
  let totalScore := u.stats.averageScore * ((totalSessions - 1 : Nat) : ℚ) + inp.score
  let stats :=
    { u.stats with
        totalSessions := totalSessions
        totalPlayTime := u.stats.totalPlayTime + inp.duration
        averageScore := totalScore / (totalSessions : ℚ)
        gamesPlayed := gamesPlayedSet u.stats.gamesPlayed inp.gameType
          (gamesPlayedGet u.stats.gamesPlayed inp.gameType + 1) }
  let u1 := { u with stats := stats }
  let u2 := (addXP u1 (xpGained inp.score)).1
  checkAndAwardBadges u2 inp.score

/-- The `POST /api/sessions` handler: validate; on any violation respond
400 with the error list and leave all state untouched; otherwise persist
the Session and apply the user-stats update, responding 201.
(The ML-prediction enrichment and percentile jitter are randomized
side-channels on the stored session and are not part of any verified
property.) -/
def processSession (u : User) (sessions : List SessionInput)
    (inp : SessionInput) : PostResult :=
  if (validationErrors inp).isEmpty then
    { status := 201, errors := [],
      user := applySessionToUser u inp,
      sessions := sessions ++ [inp] }
  else
    { status := 400, errors := validationErrors inp, user := u,
      sessions := sessions }

/-- Fold a sequence of `POST /api/sessions` requests over the persistent
state. -/
def processAll (u : User) (sessions : List SessionInput)
    (inps : List SessionInput) : PostResult :=
  inps.foldl (fun acc inp => processSession acc.user acc.sessions inp)
    { status := 201, errors := [], user := u, sessions := sessions }

/-! ### Refresh-token rotation (refresh.js + the token utilities) -/

/-- A persisted RefreshToken document: `userId`, unique `jti`,
`isBlacklisted` flag. (`expiresAt`/TTL garbage collection is the store's
concern; an expired-and-removed record behaves like an absent one in this
model.) Identifiers are abstracted to naturals. -/
structure TokenRec where
  userId : Nat
  jti : Nat
  isBlacklisted : Bool
deriving Repr, DecidableEq

/-- The RefreshToken collection. -/
abbrev TokenStore := List TokenRec

/-- The `findOne({jti, userId, isBlacklisted: false})` query inside
`verifyRefreshToken`. -/
def findActive (st : TokenStore) (uid j : Nat) : Option TokenRec :=
  st.find? (fun r => r.jti == j && r.userId == uid && !r.isBlacklisted)

/-- `blacklistRefreshToken(jti)` = `updateOne({jti}, {isBlacklisted:true})`:
set the flag on the first (under the unique index: the only) record with
this jti. -/
def blacklistRefreshToken : TokenStore → Nat → TokenStore
  | [], _ => []
  | r :: rs, j =>
      if r.jti == j then { r with isBlacklisted := true } :: rs
      else r :: blacklistRefreshToken rs j

/-- Outcome of a `POST /auth/refresh` request. -/
inductive RefreshOutcome where
  | success (newJti : Nat)
  | rejected401
deriving Repr, DecidableEq

/-- `refreshTokenMiddleware` presented with a signature-valid refresh JWT
decoding to `(uid, j)`: verify (find a non-blacklisted record for the jti,
then find the user), blacklist the presented jti, and persist a new
refresh record under the fresh jti; any verification failure rejects with
401 and leaves the store untouched. -/
def refreshStep (users : List Nat) (st : TokenStore) (uid j fresh : Nat) :
    TokenStore × RefreshOutcome :=
  if (findActive st uid j).isSome then
    if uid ∈ users then
      (blacklistRefreshToken st j ++ [⟨uid, fresh, false⟩], .success fresh)
    else
      (st, .rejected401)
  else
    (st, .rejected401)

/-- The operations that touch the RefreshToken collection: issuing a token
at login/registration (`generateRefreshToken`), a refresh request, and
logout (`revokeAllUserTokens`). -/
inductive TokenOp where
  | issue (uid j : Nat)
  | doRefresh (uid j fresh : Nat)
  | logout (uid : Nat)
deriving Repr, DecidableEq

/-- Apply one token operation to the store. -/
def applyTokenOp (users : List Nat) (st : TokenStore) : TokenOp → TokenStore
  | .issue uid j => st ++ [⟨uid, j, false⟩]
  | .doRefresh uid j fresh => (refreshStep users st uid j fresh).1
  | .logout uid =>
      st.map (fun r =>
        if r.userId == uid && !r.isBlacklisted
        then { r with isBlacklisted := true } else r)

/-- The jtis freshly minted (by `uuidv4`) during an operation. -/
def mintedJtis : TokenOp → List Nat
  | .issue _ j => [j]
  | .doRefresh _ _ fresh => [fresh]
  | .logout _ => []

/-- Every record carrying this jti is blacklisted (the token is dead). -/
def jtiDead (st : TokenStore) (j : Nat) : Prop :=
  ∀ r ∈ st, r.jti = j → r.isBlacklisted = true

instance (st : TokenStore) (j : Nat) : Decidable (jtiDead st j) := by
  unfold jtiDead; infer_instance

/-! ### Leaderboard aggregation (ml3.js GET /leaderboard) -/

/-- MongoDB `$round` to 0 places: round half to even. -/
def mongoRound (x : ℚ) : ℤ :=
  if Int.fract x = 1 / 2 then
    if ⌊x⌋ % 2 = 0 then ⌊x⌋ else ⌊x⌋ + 1
  else round x

/-- MongoDB `$round` to 1 decimal place. -/
def mongoRound1 (x : ℚ) : ℚ := ((mongoRound (x * 10) : ℚ)) / 10

/-- One session row seen by the leaderboard `$match` stage: the owning
user and the score. -/
structure SRow where
  userId : Nat
  score : ℚ
deriving Repr, DecidableEq

/-- One leaderboard entry after `$group` + `$project`. -/
structure LBEntry where
  userId : Nat
  totalSessions : Nat
  averageScore : ℚ
  totalXP : ℤ
  bestScore : ℚ
deriving Repr, DecidableEq

/-- The scores of one user's sessions in the window. -/
def scoresOf (rows : List SRow) (uid : Nat) : List ℚ :=
  (rows.filter (fun r => r.userId == uid)).map (fun r => r.score)

/-- `$max` of the group's scores (0 when empty, matching the JS fallback
shape; the group is never empty for a grouped userId). -/
def bestOf (scores : List ℚ) : ℚ := scores.foldr max 0

/-- The `$group`/`$project` result for one userId:
`totalSessions: {$sum: 1}`, `averageScore: {$round:[{$avg:'$score'},1]}`,
`totalXP: {$round:[{$sum:{$multiply:['$score',0.1]}},0]}`,
`bestScore: {$max:'$score'}`. -/
def entryFor (rows : List SRow) (uid : Nat) : LBEntry :=
  let scores := scoresOf rows uid
  { userId := uid
    totalSessions := scores.length
    averageScore := mongoRound1 (scores.sum / (scores.length : ℚ))
    totalXP := mongoRound ((scores.map (fun s => s * (1 / 10))).sum)
    bestScore := bestOf scores }

/-- The distinct userIds appearing in the window (the `$group` keys). -/
def groupKeys (rows : List SRow) : List Nat :=
  (rows.map (fun r => r.userId)).dedup

/-- The `$sort: {averageScore: -1, totalSessions: -1}` order. -/
def lbLE (a b : LBEntry) : Prop :=
  b.averageScore < a.averageScore ∨
    (a.averageScore = b.averageScore ∧ b.totalSessions ≤ a.totalSessions)

instance : DecidableRel lbLE := by
  unfold lbLE; infer_instance

instance : IsTotal LBEntry lbLE := by
  constructor
  intro a b
  unfold lbLE
  rcases lt_trichotomy a.averageScore b.averageScore with h | h | h
  · exact Or.inr (Or.inl h)
  · rcases Nat.le_total b.totalSessions a.totalSessions with hs | hs
    · exact Or.inl (Or.inr ⟨h, hs⟩)
    · exact Or.inr (Or.inr ⟨h.symm, hs⟩)
  · exact Or.inl (Or.inl h)

instance : IsTrans LBEntry lbLE := by
  constructor
  intro a b c hab hbc
  unfold lbLE at *
  rcases hab with h1 | ⟨h1, h1s⟩
  · rcases hbc with h2 | ⟨h2, _⟩
    · exact Or.inl (h2.trans h1)
    · exact Or.inl (h2 ▸ h1)
  · rcases hbc with h2 | ⟨h2, h2s⟩
    · exact Or.inl (h1 ▸ h2)
    · exact Or.inr ⟨h1.trans h2, h2s.trans h1s⟩

/-- A leaderboard entry annotated by the route's `map`:
`rank: index + 1`, `isCurrentUser: userId === req.user.id`. -/
structure RankedEntry where
  entry : LBEntry
  rank : Nat
  isCurrentUser : Bool
deriving Repr, DecidableEq

/-- `leaderboard.map((user, index) => ({...user, rank: index+1, ...}))`,
written as a recursion on the list carrying the running index. -/
def addRanks (currentUid : Nat) : Nat → List LBEntry → List RankedEntry
  | _, [] => []
  | i, e :: es =>
      ⟨e, i + 1, e.userId == currentUid⟩ :: addRanks currentUid (i + 1) es

/-- `GET /api/users/leaderboard`: group sessions in the window by user,
sort by `averageScore` desc then `totalSessions` desc, truncate to
`limit`, and annotate with 1-based ranks. -/
def leaderboard (rows : List SRow) (limit : Nat) (currentUid : Nat) :
    List RankedEntry :=
  addRanks currentUid 0
    ((List.insertionSort lbLE ((groupKeys rows).map (entryFor rows))).take limit)

/-- The totalXP figure the spec describes: the user's mean session score
in the window multiplied by 0.1, rounded. (Spec wording, for comparison
with `entryFor`'s `totalXP`, which the source computes from the sum.) -/
def specTotalXP (scores : List ℚ) : ℤ :=
  mongoRound ((scores.sum / (scores.length : ℚ)) * (1 / 10))

/-! ### Analytics trend (sessions.js calculatePerformanceTrends) -/

/-- The value returned by `calculatePerformanceTrends`. The short-history
early return carries no `recentAverage` field, hence the `Option`. -/
structure TrendResult where
  trend : String
  change : ℚ
  recentAverage : Option ℚ
deriving Repr, DecidableEq

/-- `calculatePerformanceTrends(sessions)` over the session scores,
most recent first. `olderAvg` is
`older.reduce(sum)/older.length || recentAvg`: the JS `||` falls back to
`recentAvg` both when `older` is empty (NaN) and when its mean is 0
(falsy). `change` is `(recentAvg-olderAvg)/olderAvg*100` and the reported
change is `Math.round(change*100)/100`. -/
def calculatePerformanceTrends (scores : List ℚ) : TrendResult :=
  if scores.length < 2 then
    { trend := "stable", change := 0, recentAverage := none }
  else
    let recent := scores.take 5
    let older := (scores.drop 5).take 5
    let recentAvg := recent.sum / (recent.length : ℚ)
    let olderRaw := older.sum / (older.length : ℚ)
    let olderAvg := if older.length = 0 ∨ olderRaw = 0 then recentAvg else olderRaw
    let change := (recentAvg - olderAvg) / olderAvg * 100
    { trend :=
        if change > 5 then "improving"
        else if change < -5 then "declining"
        else "stable"
      change := ((round (change * 100) : ℚ)) / 100
      recentAverage := some (((round (recentAvg * 100) : ℚ)) / 100) }

/-! ### XP-awarding operations as invoked by the POST /api/sessions handler -/

/-- The two ways the session endpoint grants XP: the per-session award
`addXP(Math.floor(score/10)*10 + 50)` and the flat badge bonus
`addXP(100)`. -/
inductive XPOp where
  | sessionXP (score : ℚ)
  | badgeBonus
deriving Repr, DecidableEq

/-- Apply one XP-awarding operation. -/
def applyXPOp (u : User) : XPOp → User
  | .sessionXP score => (addXP u (xpGained score)).1
  | .badgeBonus => (addXP u 100).1

/-- Session XP grants come only from accepted submissions, whose score was
validated into [0,100]. -/
def validXPOp : XPOp → Prop
  | .sessionXP score => 0 ≤ score ∧ score ≤ 100
  | .badgeBonus => True

instance : DecidablePred validXPOp := by
  intro op
  cases op <;> simp only [validXPOp] <;> infer_instance

/-- The level/xp consistency invariant of the spec:
`level == Math.floor(xp/1000) + 1`. -/
def levelConsistent (u : User) : Prop := u.level = ⌊u.xp / 1000⌋ + 1

/-- The ids of the three streak-milestone badges (7, 14, 30 days). -/
def streakBadgeIds : List String := ["streak-7", "streak-14", "streak-30"]

/-- The streak-milestone badges a user currently holds. -/
def streakBadgesOf (u : User) : List Badge :=
  u.badges.filter (fun b => decide (b.id ∈ streakBadgeIds))

/-- The ids of a user's badges. -/
def badgeIds (u : User) : List String := u.badges.map (fun b => b.id)

instance : Inhabited LBEntry := ⟨⟨0, 0, 0, 0, 0⟩⟩

instance : Inhabited RankedEntry := ⟨⟨default, 0, false⟩⟩

/-! ### Frame lemmas for the user-update pipeline -/

lemma addXP_frame (u : User) (p : ℚ) :
    (addXP u p).1.stats = u.stats ∧ (addXP u p).1.streak = u.streak ∧
    (addXP u p).1.lastActiveDate = u.lastActiveDate ∧
    (addXP u p).1.badges = u.badges := by
  simp only [addXP]
  split <;> exact ⟨rfl, rfl, rfl, rfl⟩

lemma awardBadge_frame (u : User) (b : Badge) :
    (awardBadge u b).1.stats = u.stats ∧ (awardBadge u b).1.streak = u.streak ∧
    (awardBadge u b).1.lastActiveDate = u.lastActiveDate := by
  simp only [awardBadge]
  split <;> exact ⟨rfl, rfl, rfl⟩

lemma awardStep_frame (u : User) (b : Badge) :
    (awardStep u b).stats = u.stats ∧ (awardStep u b).streak = u.streak ∧
    (awardStep u b).lastActiveDate = u.lastActiveDate := by
  obtain ⟨hb1, hb2, hb3⟩ := awardBadge_frame u b
  obtain ⟨hx1, hx2, hx3, _⟩ := addXP_frame (awardBadge u b).1 100
  simp only [awardStep]
  split
  · exact ⟨hx1.trans hb1, hx2.trans hb2, hx3.trans hb3⟩
  · exact ⟨hb1, hb2, hb3⟩

lemma awardLoop_frame (bs : List Badge) (u : User) :
    (awardLoop u bs).stats = u.stats ∧ (awardLoop u bs).streak = u.streak ∧
    (awardLoop u bs).lastActiveDate = u.lastActiveDate := by
  induction bs generalizing u with
  | nil => exact ⟨rfl, rfl, rfl⟩
  | cons b bs ih =>
      obtain ⟨h1, h2, h3⟩ := awardStep_frame u b
      obtain ⟨g1, g2, g3⟩ := ih (awardStep u b)
      exact ⟨g1.trans h1, g2.trans h2, g3.trans h3⟩

lemma checkAndAwardBadges_frame (u : User) (s : ℚ) :
    (checkAndAwardBadges u s).stats = u.stats ∧
    (checkAndAwardBadges u s).streak = u.streak ∧
    (checkAndAwardBadges u s).lastActiveDate = u.lastActiveDate :=
  awardLoop_frame _ u

/-! ### The running-average invariant (C1) -/

lemma applySessionToUser_stats (u : User) (inp : SessionInput) :
    (applySessionToUser u inp).stats.totalSessions = u.stats.totalSessions + 1 ∧
    (applySessionToUser u inp).stats.averageScore =
      (u.stats.averageScore * (u.stats.totalSessions : ℚ) + inp.score) /
        ((u.stats.totalSessions : ℚ) + 1) := by
  unfold applySessionToUser
  obtain ⟨hstats, -, -⟩ :=
    checkAndAwardBadges_frame (addXP
      { u with stats :=
          { u.stats with
              totalSessions := u.stats.totalSessions + 1
              totalPlayTime := u.stats.totalPlayTime + inp.duration
              averageScore := (u.stats.averageScore *
                  ((u.stats.totalSessions + 1 - 1 : Nat) : ℚ) + inp.score) /
                ((u.stats.totalSessions + 1 : Nat) : ℚ)
              gamesPlayed := gamesPlayedSet u.stats.gamesPlayed inp.gameType
                (gamesPlayedGet u.stats.gamesPlayed inp.gameType + 1) } }
      (xpGained inp.score)).1 inp.score
  obtain ⟨hstats2, -, -, -⟩ := addXP_frame
    { u with stats :=
        { u.stats with
            totalSessions := u.stats.totalSessions + 1
            totalPlayTime := u.stats.totalPlayTime + inp.duration
            averageScore := (u.stats.averageScore *
                ((u.stats.totalSessions + 1 - 1 : Nat) : ℚ) + inp.score) /
              ((u.stats.totalSessions + 1 : Nat) : ℚ)
            gamesPlayed := gamesPlayedSet u.stats.gamesPlayed inp.gameType
              (gamesPlayedGet u.stats.gamesPlayed inp.gameType + 1) } }
    (xpGained inp.score)
  rw [hstats, hstats2]
  refine ⟨rfl, ?_⟩
  simp only [Nat.add_sub_cancel]
  push_cast
  ring_nf

lemma processSession_valid (u : User) (sessions : List SessionInput)
    (inp : SessionInput) (h : validationErrors inp = []) :
    processSession u sessions inp =
      { status := 201, errors := [], user := applySessionToUser u inp,
        sessions := sessions ++ [inp] } := by
  simp [processSession, h]

lemma processAll_cons (u : User) (s : List SessionInput)
    (inp : SessionInput) (inps : List SessionInput)
    (h : validationErrors inp = []) :
    processAll u s (inp :: inps) =
      processAll (applySessionToUser u inp) (s ++ [inp]) inps := by
  simp only [processAll, List.foldl_cons]
  rw [processSession_valid u s inp h]

lemma processAll_avg (inps : List SessionInput) (u : User)
    (s : List SessionInput) (hv : ∀ i ∈ inps, validationErrors i = []) :
    (processAll u s inps).user.stats.totalSessions =
      u.stats.totalSessions + inps.length ∧
    (processAll u s inps).user.stats.averageScore *
        ((processAll u s inps).user.stats.totalSessions : ℚ) =
      u.stats.averageScore * (u.stats.totalSessions : ℚ) +
        (inps.map (fun i => i.score)).sum := by
  induction inps generalizing u s with
  | nil =>
      simp [processAll]
  | cons inp inps ih =>
      have hvi : validationErrors inp = [] := hv inp (List.mem_cons_self _ _)
      have hvs : ∀ i ∈ inps, validationErrors i = [] :=
        fun i hi => hv i (List.mem_cons_of_mem _ hi)
      rw [processAll_cons u s inp inps hvi]
      obtain ⟨ht, ha⟩ := ih (applySessionToUser u inp) (s ++ [inp]) hvs
      obtain ⟨gt, ga⟩ := applySessionToUser_stats u inp
      constructor
      · rw [ht, gt]; simp only [List.length_cons]; omega
      · rw [ha, ga, gt]
        simp only [List.map_cons, List.sum_cons]
        push_cast
        rw [div_mul_cancel₀]
        · ring
        · positivity

/-- C1: for every user with no prior sessions and every sequence of
accepted session submissions with scores s₁..sₙ via POST /api/sessions,
after the n-th submission `user.stats.averageScore` equals the arithmetic
mean of s₁..sₙ, maintained by the incremental update
`newAvg = (oldAvg*(n-1) + newScore)/n` with `n` the post-increment
`totalSessions` count (exact-arithmetic model of the float computation). -/
theorem averageScore_is_mean (u : User) (s : List SessionInput)
    (inps : List SessionInput)
    (h0 : u.stats.totalSessions = 0)
    (hne : inps ≠ [])
    (hv : ∀ i ∈ inps, validationErrors i = []) :
    (processAll u s inps).user.stats.averageScore =
      (inps.map (fun i => i.score)).sum / (inps.length : ℚ) := by
  obtain ⟨ht, ha⟩ := processAll_avg inps u s hv
  rw [h0] at ht ha
  rw [ht] at ha
  simp only [Nat.cast_zero, mul_zero, zero_add] at ha
  have hlen : (inps.length : ℚ) ≠ 0 := by
    exact_mod_cast fun hc => hne (List.length_eq_zero.mp (by exact_mod_cast hc))
  rw [eq_div_iff hlen]
  exact ha

/-- Witness for C1 at a concrete two-submission run (scores 80 and 90). -/
theorem averageScore_is_mean_witness :
    (processAll (initialUser 0) []
        [⟨"n-back", "working_memory", "easy", 30, 80, 90⟩,
         ⟨"flanker", "attention", "hard", 45, 90, 100⟩]).user.stats.averageScore =
      (([⟨"n-back", "working_memory", "easy", 30, 80, 90⟩,
         ⟨"flanker", "attention", "hard", 45, 90, 100⟩] :
           List SessionInput).map (fun i => i.score)).sum /
        (([⟨"n-back", "working_memory", "easy", 30, 80, 90⟩,
           ⟨"flanker", "attention", "hard", 45, 90, 100⟩] :
             List SessionInput).length : ℚ) :=
  averageScore_is_mean (initialUser 0) [] _ rfl (by decide) (by decide)

/-! ### The level/xp invariant (C2) -/

lemma xpGained_nonneg (s : ℚ) (h : 0 ≤ s) : 0 ≤ xpGained s := by
  unfold xpGained
  have hf : 0 ≤ ⌊s / 10⌋ := Int.floor_nonneg.mpr (by positivity)
  have : (0 : Int) ≤ ⌊s / 10⌋ * 10 + 50 := by omega
  exact_mod_cast this

lemma addXP_levelConsistent (u : User) (p : ℚ) (hp : 0 ≤ p)
    (h : levelConsistent u) : levelConsistent (addXP u p).1 := by
  unfold levelConsistent at *
  have hmono : ⌊u.xp / 1000⌋ ≤ ⌊(u.xp + p) / 1000⌋ :=
    Int.floor_le_floor ((div_le_div_iff_of_pos_right
      (by norm_num : (0 : ℚ) < 1000)).mpr (by linarith))
  unfold addXP
  simp only
  split
  · rfl
  · rename_i hlt
    simp only [not_lt] at hlt
    have : u.level ≤ ⌊(u.xp + p) / 1000⌋ + 1 := by rw [h]; omega
    simp only
    omega

lemma foldXPOps_levelConsistent (ops : List XPOp) (u : User)
    (hv : ∀ op ∈ ops, validXPOp op) (h : levelConsistent u) :
    levelConsistent (ops.foldl applyXPOp u) := by
  induction ops generalizing u with
  | nil => exact h
  | cons op ops ih =>
      have hop : validXPOp op := hv op (List.mem_cons_self _ _)
      have hops : ∀ o ∈ ops, validXPOp o :=
        fun o ho => hv o (List.mem_cons_of_mem _ ho)
      refine ih (applyXPOp u op) hops ?_
      cases op with
      | sessionXP score =>
          exact addXP_levelConsistent u _ (xpGained_nonneg score hop.1) h
      | badgeBonus =>
          exact addXP_levelConsistent u 100 (by norm_num) h

/-- C2: starting from the initial state (level=1, xp=0), after every
sequence of XP-awarding operations of the session endpoint (session XP
grants for validated scores and flat badge bonuses, both via `addXP`),
`user.level = ⌊user.xp / 1000⌋ + 1` holds, even though `addXP` only raises
the stored level when the recomputed value exceeds it. -/
theorem level_consistent_after_xp_ops (d : Int) (ops : List XPOp)
    (hv : ∀ op ∈ ops, validXPOp op) :
    levelConsistent (ops.foldl applyXPOp (initialUser d)) := by
  refine foldXPOps_levelConsistent ops (initialUser d) hv ?_
  unfold levelConsistent initialUser
  norm_num

/-- Witness for C2: twelve perfect-score sessions with badge bonuses cross
the 1000-xp threshold (the fold is evaluated concretely). -/
theorem level_consistent_after_xp_ops_witness :
    levelConsistent
      (([.sessionXP 100, .badgeBonus, .sessionXP 100, .sessionXP 95,
         .sessionXP 100, .sessionXP 100, .sessionXP 100, .sessionXP 100,
         .badgeBonus] : List XPOp).foldl applyXPOp (initialUser 0)) :=
  level_consistent_after_xp_ops 0 _ (by decide)

/-! ### The first-session scenario (C3) -/

/-- C3 counterexample: on the first accepted submission with score 100,
the stored `user.xp` is not 150 — after the 150 session XP the handler
also grants +100 XP for each of the two newly earned badges. -/
theorem first_session_xp_not_150 :
    (processSession (initialUser 0) []
        ⟨"n-back", "working_memory", "medium", 60, 100, 100⟩).user.xp ≠ 150 := by
  norm_num +decide [processSession, validationErrors, applySessionToUser,
    checkAndAwardBadges, candidateBadges, awardLoop, awardStep, awardBadge,
    addXP, xpGained, gamesPlayedSet, gamesPlayedGet, initialUser,
    gameTypes, domains, difficulties, firstSessionBadge, perfectScoreBadge,
    sessionsBadge, streakBadge]

/-- C3 (amended): for the first accepted submission with score=100,
accuracy=100, duration=60, gameType=n-back, domain=working_memory,
difficulty=medium: totalSessions=1, xp=350 (150 session XP plus two
+100 badge bonuses), level=1, badges are exactly first-session and
perfect-score, and averageScore=100. -/
theorem first_session_scenario :
    (processSession (initialUser 0) []
        ⟨"n-back", "working_memory", "medium", 60, 100, 100⟩).status = 201 ∧
    (processSession (initialUser 0) []
        ⟨"n-back", "working_memory", "medium", 60, 100, 100⟩).user.stats.totalSessions = 1 ∧
    (processSession (initialUser 0) []
        ⟨"n-back", "working_memory", "medium", 60, 100, 100⟩).user.xp = 350 ∧
    (processSession (initialUser 0) []
        ⟨"n-back", "working_memory", "medium", 60, 100, 100⟩).user.level = 1 ∧
    badgeIds (processSession (initialUser 0) []
        ⟨"n-back", "working_memory", "medium", 60, 100, 100⟩).user =
      ["first-session", "perfect-score"] ∧
    (processSession (initialUser 0) []
        ⟨"n-back", "working_memory", "medium", 60, 100, 100⟩).user.stats.averageScore = 100 := by
  refine ⟨?_, ?_, ?_, ?_, ?_, ?_⟩ <;>
    norm_num +decide [processSession, validationErrors, applySessionToUser,
      checkAndAwardBadges, candidateBadges, awardLoop, awardStep, awardBadge,
      addXP, xpGained, gamesPlayedSet, gamesPlayedGet, initialUser, badgeIds,
      gameTypes, domains, difficulties, firstSessionBadge, perfectScoreBadge,
      sessionsBadge, streakBadge]

/-! ### Badge-id uniqueness (C5) -/

lemma awardBadge_of_mem (u : User) (b : Badge) (h : b.id ∈ badgeIds u) :
    awardBadge u b = (u, false) := by
  unfold awardBadge
  rw [if_pos]
  simp only [badgeIds, List.mem_map] at h
  obtain ⟨x, hx, hxid⟩ := h
  simp only [List.any_eq_true]
  exact ⟨x, hx, by simp [hxid]⟩

lemma addXP_badgeIds (u : User) (p : ℚ) : badgeIds (addXP u p).1 = badgeIds u := by
  obtain ⟨-, -, -, hb⟩ := addXP_frame u p
  unfold badgeIds
  rw [hb]

lemma awardBadge_of_not_mem (u : User) (b : Badge)
    (hmem : ¬(u.badges.any fun badge => badge.id == b.id) = true) :
    awardBadge u b = ({ u with badges := u.badges ++ [b] }, true) := by
  unfold awardBadge
  rw [if_neg hmem]

lemma awardStep_badgeIds_nodup (u : User) (b : Badge)
    (h : (badgeIds u).Nodup) : (badgeIds (awardStep u b)).Nodup := by
  unfold awardStep
  by_cases hmem : (u.badges.any fun badge => badge.id == b.id) = true
  · have heq : awardBadge u b = (u, false) := by
      unfold awardBadge; rw [if_pos hmem]
    rw [heq]
    exact h
  · rw [awardBadge_of_not_mem u b hmem]
    rw [if_pos (rfl : true = true)]
    rw [addXP_badgeIds]
    have hnot : b.id ∉ badgeIds u := by
      intro hc
      apply hmem
      simp only [badgeIds, List.mem_map] at hc
      obtain ⟨x, hx, hxid⟩ := hc
      simp only [List.any_eq_true]
      exact ⟨x, hx, by simp [hxid]⟩
    have hids : badgeIds { u with badges := u.badges ++ [b] } =
        badgeIds u ++ [b.id] := by
      unfold badgeIds
      simp
    rw [hids]
    refine List.Nodup.append h (List.nodup_singleton _) ?_
    intro x hx hxb
    rw [List.mem_singleton] at hxb
    exact hnot (hxb ▸ hx)

lemma awardLoop_badgeIds_nodup (bs : List Badge) (u : User)
    (h : (badgeIds u).Nodup) : (badgeIds (awardLoop u bs)).Nodup := by
  induction bs generalizing u with
  | nil => exact h
  | cons b bs ih => exact ih (awardStep u b) (awardStep_badgeIds_nodup u b h)

lemma applySessionToUser_badgeIds_nodup (u : User) (inp : SessionInput)
    (h : (badgeIds u).Nodup) :
    (badgeIds (applySessionToUser u inp)).Nodup := by
  unfold applySessionToUser checkAndAwardBadges
  apply awardLoop_badgeIds_nodup
  rw [addXP_badgeIds]
  exact h

lemma processSession_badgeIds_nodup (u : User) (sessions : List SessionInput)
    (inp : SessionInput) (h : (badgeIds u).Nodup) :
    (badgeIds (processSession u sessions inp).user).Nodup := by
  unfold processSession
  split
  · exact applySessionToUser_badgeIds_nodup u inp h
  · exact h

lemma foldPost_user_eq (inps : List SessionInput) (a b : PostResult)
    (hu : a.user = b.user) (hs : a.sessions = b.sessions) :
    (inps.foldl (fun acc inp => processSession acc.user acc.sessions inp) a).user =
      (inps.foldl (fun acc inp => processSession acc.user acc.sessions inp) b).user := by
  induction inps generalizing a b with
  | nil => exact hu
  | cons inp inps ih =>
      simp only [List.foldl_cons]
      exact ih _ _ (by rw [hu, hs]) (by rw [hu, hs])

lemma processAll_cons_user (u : User) (s : List SessionInput)
    (inp : SessionInput) (inps : List SessionInput) :
    (processAll u s (inp :: inps)).user =
      (processAll (processSession u s inp).user
        (processSession u s inp).sessions inps).user := by
  simp only [processAll, List.foldl_cons]
  exact foldPost_user_eq inps _ _ rfl rfl

lemma processAll_badgeIds_nodup (inps : List SessionInput) (u : User)
    (s : List SessionInput) (h : (badgeIds u).Nodup) :
    (badgeIds (processAll u s inps).user).Nodup := by
  induction inps generalizing u s with
  | nil => exact h
  | cons inp inps ih =>
      rw [processAll_cons_user]
      exact ih _ _ (processSession_badgeIds_nodup u s inp h)

/-- C5: a badge id is never duplicated: `awardBadge` returns false and
appends nothing when the id is already present, and consequently every
sequence of session submissions keeps the badge-id list duplicate-free. -/
theorem badge_ids_never_duplicated :
    (∀ (u : User) (b : Badge), b.id ∈ badgeIds u → awardBadge u b = (u, false)) ∧
    (∀ (u : User) (s inps : List SessionInput), (badgeIds u).Nodup →
      (badgeIds (processAll u s inps).user).Nodup) :=
  ⟨awardBadge_of_mem, fun u s inps h => processAll_badgeIds_nodup inps u s h⟩

/-- Witness for C5: re-awarding `first-session` to a user who holds it is
a no-op, and a concrete two-submission run keeps badge ids unique. -/
theorem badge_ids_never_duplicated_witness :
    awardBadge
        { initialUser 0 with badges := [firstSessionBadge] } firstSessionBadge =
      ({ initialUser 0 with badges := [firstSessionBadge] }, false) ∧
    (badgeIds (processAll (initialUser 0) []
        [⟨"n-back", "working_memory", "medium", 60, 100, 100⟩,
         ⟨"n-back", "working_memory", "medium", 60, 100, 100⟩]).user).Nodup :=
  ⟨badge_ids_never_duplicated.1 _ firstSessionBadge (by decide),
   badge_ids_never_duplicated.2 (initialUser 0) [] _ (by decide)⟩

/-! ### Validation of POST /api/sessions (C6) -/

lemma mem_validationErrors (s : String) (inp : SessionInput) :
    s ∈ validationErrors inp ↔
      ((s = "gameType" ∧ inp.gameType ∉ gameTypes) ∨
       (s = "domain" ∧ inp.domain ∉ domains) ∨
       (s = "difficulty" ∧ inp.difficulty ∉ difficulties) ∨
       (s = "duration" ∧ ¬(1 ≤ inp.duration)) ∨
       (s = "score" ∧ ¬(0 ≤ inp.score ∧ inp.score ≤ 100)) ∨
       (s = "accuracy" ∧ ¬(0 ≤ inp.accuracy ∧ inp.accuracy ≤ 100))) := by
  unfold validationErrors
  split_ifs <;> simp_all

/-- C6: if any input constraint fails, `POST /api/sessions` responds 400
with the list of all violated fields and neither persists a Session nor
modifies the User. -/
theorem invalid_submission_rejected (u : User) (sessions : List SessionInput)
    (inp : SessionInput) (h : validationErrors inp ≠ []) :
    (processSession u sessions inp).status = 400 ∧
    (processSession u sessions inp).errors = validationErrors inp ∧
    (processSession u sessions inp).user = u ∧
    (processSession u sessions inp).sessions = sessions ∧
    (∀ s, s ∈ (processSession u sessions inp).errors ↔
      ((s = "gameType" ∧ inp.gameType ∉ gameTypes) ∨
       (s = "domain" ∧ inp.domain ∉ domains) ∨
       (s = "difficulty" ∧ inp.difficulty ∉ difficulties) ∨
       (s = "duration" ∧ ¬(1 ≤ inp.duration)) ∨
       (s = "score" ∧ ¬(0 ≤ inp.score ∧ inp.score ≤ 100)) ∨
       (s = "accuracy" ∧ ¬(0 ≤ inp.accuracy ∧ inp.accuracy ≤ 100)))) := by
  have hne : (validationErrors inp).isEmpty = false := by
    rw [List.isEmpty_eq_false]
    exact h
  unfold processSession
  rw [if_neg (by simp [hne])]
  exact ⟨rfl, rfl, rfl, rfl, fun s => mem_validationErrors s inp⟩

/-- Witness for C6 at an input violating gameType, duration and score. -/
theorem invalid_submission_rejected_witness :
    (processSession (initialUser 0) []
        ⟨"bogus", "working_memory", "easy", 0, 150, 50⟩).status = 400 ∧
    (processSession (initialUser 0) []
        ⟨"bogus", "working_memory", "easy", 0, 150, 50⟩).errors =
      validationErrors ⟨"bogus", "working_memory", "easy", 0, 150, 50⟩ ∧
    (processSession (initialUser 0) []
        ⟨"bogus", "working_memory", "easy", 0, 150, 50⟩).user = initialUser 0 ∧
    (processSession (initialUser 0) []
        ⟨"bogus", "working_memory", "easy", 0, 150, 50⟩).sessions = [] ∧
    (∀ s, s ∈ (processSession (initialUser 0) []
        ⟨"bogus", "working_memory", "easy", 0, 150, 50⟩).errors ↔
      ((s = "gameType" ∧ ("bogus" : String) ∉ gameTypes) ∨
       (s = "domain" ∧ ("working_memory" : String) ∉ domains) ∨
       (s = "difficulty" ∧ ("easy" : String) ∉ difficulties) ∨
       (s = "duration" ∧ ¬((1 : Int) ≤ 0)) ∨
       (s = "score" ∧ ¬((0 : ℚ) ≤ 150 ∧ (150 : ℚ) ≤ 100)) ∨
       (s = "accuracy" ∧ ¬((0 : ℚ) ≤ 50 ∧ (50 : ℚ) ≤ 100)))) :=
  invalid_submission_rejected (initialUser 0) []
    ⟨"bogus", "working_memory", "easy", 0, 150, 50⟩ (by decide)

/-! ### Frame effect of POST /api/sessions on streak state (C10) -/

lemma checkAddXP_frame (u1 : User) (p score : ℚ) :
    (checkAndAwardBadges (addXP u1 p).1 score).streak = u1.streak ∧
    (checkAndAwardBadges (addXP u1 p).1 score).stats = u1.stats ∧
    (checkAndAwardBadges (addXP u1 p).1 score).lastActiveDate = u1.lastActiveDate := by
  obtain ⟨a1, a2, a3, -⟩ := addXP_frame u1 p
  obtain ⟨c1, c2, c3⟩ := checkAndAwardBadges_frame (addXP u1 p).1 score
  exact ⟨c2.trans a2, c1.trans a1, c3.trans a3⟩

lemma applySessionToUser_frame (u : User) (inp : SessionInput) :
    (applySessionToUser u inp).streak = u.streak ∧
    (applySessionToUser u inp).stats.bestStreak = u.stats.bestStreak ∧
    (applySessionToUser u inp).lastActiveDate = u.lastActiveDate := by
  obtain ⟨h1, h2, h3⟩ := checkAddXP_frame
    { u with stats :=
        { u.stats with
            totalSessions := u.stats.totalSessions + 1
            totalPlayTime := u.stats.totalPlayTime + inp.duration
            averageScore := (u.stats.averageScore *
                ((u.stats.totalSessions + 1 - 1 : Nat) : ℚ) + inp.score) /
              ((u.stats.totalSessions + 1 : Nat) : ℚ)
            gamesPlayed := gamesPlayedSet u.stats.gamesPlayed inp.gameType
              (gamesPlayedGet u.stats.gamesPlayed inp.gameType + 1) } }
    (xpGained inp.score) inp.score
  refine ⟨h1, ?_, h3⟩
  have hbs := congrArg UserStats.bestStreak h2
  exact hbs

lemma mem_candidateBadges (u : User) (score : ℚ) (b : Badge)
    (hb : b ∈ candidateBadges u score) :
    b = firstSessionBadge ∨ b = perfectScoreBadge ∨
    (b = sessionsBadge u.stats.totalSessions ∧
      u.stats.totalSessions ∈ ([10, 25, 50, 100] : List Nat)) ∨
    (b = streakBadge u.streak ∧ u.streak ∈ ([7, 14, 30] : List Nat)) := by
  unfold candidateBadges at hb
  simp only [List.mem_append] at hb
  rcases hb with ((hb | hb) | hb) | hb
  · split_ifs at hb
    · exact Or.inl (List.mem_singleton.mp hb)
    · exact absurd hb (List.not_mem_nil _)
  · split_ifs at hb
    · exact Or.inr (Or.inl (List.mem_singleton.mp hb))
    · exact absurd hb (List.not_mem_nil _)
  · split_ifs at hb with hc
    · exact Or.inr (Or.inr (Or.inl ⟨List.mem_singleton.mp hb, hc⟩))
    · exact absurd hb (List.not_mem_nil _)
  · split_ifs at hb with hc
    · exact Or.inr (Or.inr (Or.inr ⟨List.mem_singleton.mp hb, hc⟩))
    · exact absurd hb (List.not_mem_nil _)

lemma candidateBadges_no_streak (u : User) (score : ℚ)
    (h : u.streak ∉ ([7, 14, 30] : List Nat)) :
    ∀ b ∈ candidateBadges u score, b.id ∉ streakBadgeIds := by
  intro b hb
  rcases mem_candidateBadges u score b hb with hb | hb | ⟨hb, hc⟩ | ⟨-, hc⟩
  · subst hb; decide
  · subst hb; decide
  · subst hb
    simp only [List.mem_cons, List.mem_singleton, List.not_mem_nil,
      or_false] at hc
    rcases hc with hc | hc | hc | hc <;> rw [hc] <;> decide
  · exact absurd hc h

lemma awardStep_streakBadges (u : User) (b : Badge)
    (hb : b.id ∉ streakBadgeIds) :
    streakBadgesOf (awardStep u b) = streakBadgesOf u := by
  unfold awardStep
  by_cases hmem : (u.badges.any fun badge => badge.id == b.id) = true
  · have heq : awardBadge u b = (u, false) := by
      unfold awardBadge; rw [if_pos hmem]
    rw [heq, if_neg (by simp)]
  · rw [awardBadge_of_not_mem u b hmem, if_pos (rfl : true = true)]
    have hbg : (addXP { u with badges := u.badges ++ [b] } 100).1.badges =
        u.badges ++ [b] := (addXP_frame _ _).2.2.2
    unfold streakBadgesOf
    rw [hbg, List.filter_append]
    simp [hb]

lemma awardLoop_streakBadges (bs : List Badge) (u : User)
    (h : ∀ b ∈ bs, b.id ∉ streakBadgeIds) :
    streakBadgesOf (awardLoop u bs) = streakBadgesOf u := by
  induction bs generalizing u with
  | nil => rfl
  | cons b bs ih =>
      have hstep := awardStep_streakBadges u b (h b (List.mem_cons_self _ _))
      have hrest := ih (awardStep u b)
        (fun b' hb' => h b' (List.mem_cons_of_mem _ hb'))
      exact hrest.trans hstep

lemma applySessionToUser_streakBadges (u : User) (inp : SessionInput)
    (h : u.streak ∉ ([7, 14, 30] : List Nat)) :
    streakBadgesOf (applySessionToUser u inp) = streakBadgesOf u := by
  unfold applySessionToUser checkAndAwardBadges
  set u1 : User :=
    { u with stats :=
        { u.stats with
            totalSessions := u.stats.totalSessions + 1
            totalPlayTime := u.stats.totalPlayTime + inp.duration
            averageScore := (u.stats.averageScore *
                ((u.stats.totalSessions + 1 - 1 : Nat) : ℚ) + inp.score) /
              ((u.stats.totalSessions + 1 : Nat) : ℚ)
            gamesPlayed := gamesPlayedSet u.stats.gamesPlayed inp.gameType
              (gamesPlayedGet u.stats.gamesPlayed inp.gameType + 1) } } with hu1
  have hstreak : (addXP u1 (xpGained inp.score)).1.streak = u.streak :=
    (addXP_frame u1 (xpGained inp.score)).2.1
  have hbadges : (addXP u1 (xpGained inp.score)).1.badges = u.badges :=
    (addXP_frame u1 (xpGained inp.score)).2.2.2
  have hloop := awardLoop_streakBadges
    (candidateBadges (addXP u1 (xpGained inp.score)).1 inp.score)
    (addXP u1 (xpGained inp.score)).1
    (candidateBadges_no_streak _ _ (by rw [hstreak]; exact h))
  rw [hloop]
  unfold streakBadgesOf
  rw [hbadges]

lemma processSession_c10 (u : User) (sessions : List SessionInput)
    (inp : SessionInput) :
    (processSession u sessions inp).user.streak = u.streak ∧
    (processSession u sessions inp).user.stats.bestStreak = u.stats.bestStreak ∧
    (processSession u sessions inp).user.lastActiveDate = u.lastActiveDate ∧
    (u.streak ∉ ([7, 14, 30] : List Nat) →
      streakBadgesOf (processSession u sessions inp).user = streakBadgesOf u) := by
  unfold processSession
  split
  · obtain ⟨h1, h2, h3⟩ := applySessionToUser_frame u inp
    exact ⟨h1, h2, h3, fun h => applySessionToUser_streakBadges u inp h⟩
  · exact ⟨rfl, rfl, rfl, fun _ => rfl⟩

/-- C10: the session endpoint never touches streak state: for every user
and every sequence of POST /api/sessions requests, `streak`, `bestStreak`
and `lastActiveDate` are unchanged (`updateStreak` is never invoked), and
when the user's streak is not at a milestone value (in particular always,
from the initial streak of 0) no streak-milestone badge (7/14/30 days) is
ever awarded by this endpoint. -/
theorem session_endpoint_preserves_streak (u : User)
    (s inps : List SessionInput) :
    (processAll u s inps).user.streak = u.streak ∧
    (processAll u s inps).user.stats.bestStreak = u.stats.bestStreak ∧
    (processAll u s inps).user.lastActiveDate = u.lastActiveDate ∧
    (u.streak ∉ ([7, 14, 30] : List Nat) →
      streakBadgesOf (processAll u s inps).user = streakBadgesOf u) := by
  induction inps generalizing u s with
  | nil => exact ⟨rfl, rfl, rfl, fun _ => rfl⟩
  | cons inp inps ih =>
      obtain ⟨p1, p2, p3, p4⟩ := processSession_c10 u s inp
      obtain ⟨q1, q2, q3, q4⟩ := ih (processSession u s inp).user
        (processSession u s inp).sessions
      refine ⟨?_, ?_, ?_, ?_⟩
      · rw [processAll_cons_user, q1, p1]
      · rw [processAll_cons_user, q2, p2]
      · rw [processAll_cons_user, q3, p3]
      · intro h
        rw [processAll_cons_user, q4 (by rw [p1]; exact h), p4 h]

/-- Witness for C10: two submissions from a fresh user leave streak state
untouched and award no streak badge. -/
theorem session_endpoint_preserves_streak_witness :
    streakBadgesOf (processAll (initialUser 0) []
        [⟨"n-back", "working_memory", "medium", 60, 100, 100⟩,
         ⟨"tower-hanoi", "problem_solving", "hard", 90, 40, 55⟩]).user =
      streakBadgesOf (initialUser 0) ∧
    (processAll (initialUser 0) []
        [⟨"n-back", "working_memory", "medium", 60, 100, 100⟩,
         ⟨"tower-hanoi", "problem_solving", "hard", 90, 40, 55⟩]).user.streak =
      (initialUser 0).streak :=
  ⟨(session_endpoint_preserves_streak (initialUser 0) [] _).2.2.2 (by decide),
   (session_endpoint_preserves_streak (initialUser 0) [] _).1⟩

/-! ### Single-use refresh-token rotation (C4) -/

lemma jtiDead_cons (r : TokenRec) (rs : TokenStore) (j : Nat)
    (h : jtiDead (r :: rs) j) : jtiDead rs j :=
  fun x hx => h x (List.mem_cons_of_mem _ hx)

lemma jtiDead_append (st1 st2 : TokenStore) (j : Nat)
    (h1 : jtiDead st1 j) (h2 : jtiDead st2 j) : jtiDead (st1 ++ st2) j := by
  intro x hx
  rcases List.mem_append.mp hx with hx | hx
  · exact h1 x hx
  · exact h2 x hx

lemma blacklist_preserves_dead (st : TokenStore) (j j' : Nat)
    (h : jtiDead st j) : jtiDead (blacklistRefreshToken st j') j := by
  induction st with
  | nil => exact h
  | cons r rs ih =>
      unfold blacklistRefreshToken
      split
      · intro x hx hj
        rcases List.mem_cons.mp hx with hx | hx
        · subst hx; rfl
        · exact h x (List.mem_cons_of_mem _ hx) hj
      · intro x hx hj
        rcases List.mem_cons.mp hx with hx | hx
        · subst hx; exact h x (List.mem_cons_self _ _) hj
        · exact ih (jtiDead_cons r rs j h) x hx hj

lemma blacklist_dead_self (st : TokenStore) (j : Nat)
    (hnd : (st.map (fun r => r.jti)).Nodup) :
    jtiDead (blacklistRefreshToken st j) j := by
  induction st with
  | nil => intro x hx; cases hx
  | cons r rs ih =>
      unfold blacklistRefreshToken
      split
      · rename_i hc
        intro x hx hj
        rcases List.mem_cons.mp hx with hx | hx
        · subst hx; rfl
        · exfalso
          have hr : r.jti = j := by simpa using hc
          have hmem : r.jti ∈ rs.map (fun t => t.jti) := by
            rw [hr, ← hj]
            exact List.mem_map_of_mem _ hx
          exact (List.nodup_cons.mp hnd).1 hmem
      · rename_i hc
        intro x hx hj
        rcases List.mem_cons.mp hx with hx | hx
        · exfalso
          subst hx
          exact hc (by simp [hj])
        · exact ih (List.nodup_cons.mp hnd).2 x hx hj

lemma refreshStep_success_state (users : List Nat) (st : TokenStore)
    (uid j fresh : Nat)
    (h : (refreshStep users st uid j fresh).2 = .success fresh) :
    (refreshStep users st uid j fresh).1 =
      blacklistRefreshToken st j ++ [⟨uid, fresh, false⟩] := by
  unfold refreshStep at h ⊢
  split_ifs at h ⊢ with h1 h2
  rfl

lemma applyTokenOp_preserves_dead (users : List Nat) (st : TokenStore)
    (op : TokenOp) (j : Nat) (h : jtiDead st j) (hj : j ∉ mintedJtis op) :
    jtiDead (applyTokenOp users st op) j := by
  cases op with
  | issue uid j' =>
      refine jtiDead_append st _ j h ?_
      intro x hx hxj
      exfalso
      rw [List.mem_singleton] at hx
      subst hx
      exact hj (by simpa [mintedJtis] using hxj.symm)
  | doRefresh uid j' fresh =>
      unfold applyTokenOp refreshStep
      dsimp only
      split_ifs
      · refine jtiDead_append _ _ j (blacklist_preserves_dead st j j' h) ?_
        intro x hx hxj
        exfalso
        rw [List.mem_singleton] at hx
        subst hx
        exact hj (by simpa [mintedJtis] using hxj.symm)
      · exact h
      · exact h
  | logout uid =>
      intro x hx hxj
      simp only [applyTokenOp, List.mem_map] at hx
      obtain ⟨y, hy, hyx⟩ := hx
      by_cases hc : (y.userId == uid && !y.isBlacklisted) = true
      · rw [if_pos hc] at hyx
        subst hyx
        rfl
      · rw [if_neg hc] at hyx
        subst hyx
        exact h y hy hxj

lemma foldOps_preserves_dead (ops : List TokenOp) (users : List Nat)
    (st : TokenStore) (j : Nat) (h : jtiDead st j)
    (hops : ∀ op ∈ ops, j ∉ mintedJtis op) :
    jtiDead (ops.foldl (applyTokenOp users) st) j := by
  induction ops generalizing st with
  | nil => exact h
  | cons op ops ih =>
      exact ih (applyTokenOp users st op)
        (applyTokenOp_preserves_dead users st op j h
          (hops op (List.mem_cons_self _ _)))
        (fun o ho => hops o (List.mem_cons_of_mem _ ho))

lemma refreshStep_of_dead (users : List Nat) (st : TokenStore)
    (uid j fresh : Nat) (h : jtiDead st j) :
    refreshStep users st uid j fresh = (st, .rejected401) := by
  unfold refreshStep
  have hfind : findActive st uid j = none := by
    unfold findActive
    rw [List.find?_eq_none]
    intro x hx
    simp only [Bool.and_eq_true, beq_iff_eq, Bool.not_eq_true']
    rintro ⟨⟨hj, -⟩, hbl⟩
    rw [h x hx hj] at hbl
    cases hbl
  rw [hfind]
  rfl

/-- C4: a refresh token is single-use: when a refresh presenting the
decoded claims (uid, jti) succeeds, every persisted record for that jti is
blacklisted in the resulting store, and after any further sequence of
token operations whose freshly minted jtis are new (uuid freshness), any
later refresh presenting the same token is rejected with a 401 auth error
and leaves the store unchanged. -/
theorem refresh_token_single_use (users : List Nat) (st : TokenStore)
    (uid j fresh : Nat) (ops : List TokenOp)
    (hnd : (st.map (fun r => r.jti)).Nodup)
    (hfresh : fresh ≠ j)
    (hops : ∀ op ∈ ops, j ∉ mintedJtis op)
    (hsucc : (refreshStep users st uid j fresh).2 = .success fresh) :
    jtiDead (refreshStep users st uid j fresh).1 j ∧
    ∀ fresh2 : Nat,
      refreshStep users
          (ops.foldl (applyTokenOp users) (refreshStep users st uid j fresh).1)
          uid j fresh2 =
        (ops.foldl (applyTokenOp users) (refreshStep users st uid j fresh).1,
          .rejected401) := by
  have hdead : jtiDead (refreshStep users st uid j fresh).1 j := by
    rw [refreshStep_success_state users st uid j fresh hsucc]
    refine jtiDead_append _ _ j (blacklist_dead_self st j hnd) ?_
    intro x hx hxj
    exfalso
    rw [List.mem_singleton] at hx
    subst hx
    exact hfresh hxj
  refine ⟨hdead, fun fresh2 => ?_⟩
  exact refreshStep_of_dead users _ uid j fresh2
    (foldOps_preserves_dead ops users _ j hdead hops)

/-- Witness for C4: a concrete store with one active token; its refresh
succeeds once, and after an unrelated token issuance the same token is
rejected. -/
theorem refresh_token_single_use_witness :
    jtiDead (refreshStep [1] [⟨1, 5, false⟩] 1 5 6).1 5 ∧
    refreshStep [1]
        (([TokenOp.issue 1 7]).foldl (applyTokenOp [1])
          (refreshStep [1] [⟨1, 5, false⟩] 1 5 6).1) 1 5 8 =
      (([TokenOp.issue 1 7]).foldl (applyTokenOp [1])
          (refreshStep [1] [⟨1, 5, false⟩] 1 5 6).1, .rejected401) :=
  ⟨(refresh_token_single_use [1] [⟨1, 5, false⟩] 1 5 6 [.issue 1 7]
      (by decide) (by decide) (by decide) (by decide)).1,
   (refresh_token_single_use [1] [⟨1, 5, false⟩] 1 5 6 [.issue 1 7]
      (by decide) (by decide) (by decide) (by decide)).2 8⟩

/-! ### Leaderboard ordering and ranks (C7) -/

lemma lbLE_le (a b : LBEntry) (h : lbLE a b) :
    b.averageScore ≤ a.averageScore ∧
      (a.averageScore = b.averageScore → b.totalSessions ≤ a.totalSessions) := by
  rcases h with h | ⟨h1, h2⟩
  · constructor
    · exact le_of_lt h
    · intro he
      rw [he] at h
      exact absurd h (lt_irrefl _)
  · exact ⟨le_of_eq h1.symm, fun _ => h2⟩

lemma addRanks_length (uid k : Nat) (bs : List LBEntry) :
    (addRanks uid k bs).length = bs.length := by
  induction bs generalizing k with
  | nil => rfl
  | cons e es ih => simp [addRanks, ih]

lemma addRanks_getD_rank (uid : Nat) (bs : List LBEntry) (k i : Nat)
    (h : i < bs.length) :
    ((addRanks uid k bs).getD i default).rank = k + i + 1 := by
  induction bs generalizing k i with
  | nil => exact absurd h (Nat.not_lt_zero i)
  | cons e es ih =>
      cases i with
      | zero => rfl
      | succ i =>
          have hrec := ih (k + 1) i (by simpa using h)
          simp only [addRanks, List.getD_cons_succ]
          rw [hrec]
          omega

lemma addRanks_entry_mem (uid k : Nat) (bs : List LBEntry)
    (x : RankedEntry) (hx : x ∈ addRanks uid k bs) : x.entry ∈ bs := by
  induction bs generalizing k with
  | nil => cases hx
  | cons e es ih =>
      rcases List.mem_cons.mp hx with hx | hx
      · subst hx
        exact List.mem_cons_self _ _
      · exact List.mem_cons_of_mem _ (ih (k + 1) hx)

lemma addRanks_pairwise (uid k : Nat) (bs : List LBEntry)
    (R : LBEntry → LBEntry → Prop) (h : List.Pairwise R bs) :
    List.Pairwise (fun a b => R a.entry b.entry) (addRanks uid k bs) := by
  induction bs generalizing k with
  | nil => exact List.Pairwise.nil
  | cons e es ih =>
      rcases List.pairwise_cons.mp h with ⟨he, hes⟩
      refine List.pairwise_cons.mpr ⟨?_, ih (k + 1) hes⟩
      intro x hx
      exact he x.entry (addRanks_entry_mem uid (k + 1) es x hx)

/-- C7: the leaderboard response is sorted descending by (rounded) mean
score with ties broken by session count descending, truncated to the
limit, and each entry's rank is its 1-based position; in particular mean
score is non-increasing across positions. -/
theorem leaderboard_sorted_ranked (rows : List SRow) (limit uid : Nat) :
    (leaderboard rows limit uid).length = min limit (groupKeys rows).length ∧
    List.Pairwise
      (fun a b => b.entry.averageScore ≤ a.entry.averageScore ∧
        (a.entry.averageScore = b.entry.averageScore →
          b.entry.totalSessions ≤ a.entry.totalSessions))
      (leaderboard rows limit uid) ∧
    ∀ i, i < (leaderboard rows limit uid).length →
      ((leaderboard rows limit uid).getD i default).rank = i + 1 := by
  refine ⟨?_, ?_, ?_⟩
  · unfold leaderboard
    rw [addRanks_length, List.length_take, List.length_insertionSort,
      List.length_map]
  · unfold leaderboard
    refine List.Pairwise.imp (fun hab => lbLE_le _ _ hab) ?_
    refine addRanks_pairwise uid 0 _ lbLE ?_
    exact List.Pairwise.sublist (List.take_sublist _ _)
      (List.sorted_insertionSort lbLE _)
  · intro i hi
    unfold leaderboard at hi ⊢
    rw [addRanks_length] at hi
    rw [addRanks_getD_rank uid _ 0 i hi]
    omega

/-- Witness for C7 at a concrete five-session window over three users. -/
theorem leaderboard_sorted_ranked_witness :
    0 < (leaderboard [⟨1, 100⟩, ⟨1, 100⟩, ⟨2, 90⟩, ⟨3, 90⟩, ⟨3, 80⟩] 2 2).length ∧
    ((leaderboard [⟨1, 100⟩, ⟨1, 100⟩, ⟨2, 90⟩, ⟨3, 90⟩, ⟨3, 80⟩] 2 2).getD 0
        default).rank = 0 + 1 := by
  have h := leaderboard_sorted_ranked
    [⟨1, 100⟩, ⟨1, 100⟩, ⟨2, 90⟩, ⟨3, 90⟩, ⟨3, 80⟩] 2 2
  have hlen : 0 < (leaderboard
      [⟨1, 100⟩, ⟨1, 100⟩, ⟨2, 90⟩, ⟨3, 90⟩, ⟨3, 80⟩] 2 2).length := by
    rw [h.1]
    decide
  exact ⟨hlen, h.2.2 0 hlen⟩

/-! ### Leaderboard totalXP figure (C8) -/

lemma sum_map_mul_tenth (l : List ℚ) :
    (l.map (fun s => s * (1 / 10))).sum = l.sum * (1 / 10) := by
  induction l with
  | nil => simp
  | cons x xs ih =>
      simp only [List.map_cons, List.sum_cons, ih]
      ring

/-- C8 counterexample: for a user with two sessions of score 100 in the
window, the aggregation reports totalXP = 20 (rounded 0.1·sum), while the
claim's mean-based figure is round(mean·0.1) = 10. -/
theorem totalXP_not_mean_based :
    (entryFor [⟨1, 100⟩, ⟨1, 100⟩] 1).totalXP ≠
      specTotalXP (scoresOf [⟨1, 100⟩, ⟨1, 100⟩] 1) := by
  norm_num +decide [entryFor, scoresOf, specTotalXP, mongoRound, Int.fract,
    round_eq, bestOf]

/-- C8 (amended): the reported totalXP equals the rounded value of 0.1
times the sum of the user's session scores in the window — that is, the
mean score times the session count times 0.1, rounded — not the mean
alone times 0.1. -/
theorem totalXP_is_sum_based (rows : List SRow) (uid : Nat)
    (h : scoresOf rows uid ≠ []) :
    (entryFor rows uid).totalXP =
      mongoRound ((scoresOf rows uid).sum / ((scoresOf rows uid).length : ℚ) *
        ((scoresOf rows uid).length : ℚ) * (1 / 10)) := by
  have hlen : ((scoresOf rows uid).length : ℚ) ≠ 0 := by
    exact_mod_cast fun hc =>
      h (List.length_eq_zero.mp (by exact_mod_cast hc))
  unfold entryFor
  dsimp only
  rw [sum_map_mul_tenth, div_mul_cancel₀ _ hlen]

/-- Witness for C8's amended statement at the two-session window. -/
theorem totalXP_is_sum_based_witness :
    (entryFor [⟨1, 100⟩, ⟨1, 100⟩] 1).totalXP =
      mongoRound ((scoresOf [⟨1, 100⟩, ⟨1, 100⟩] 1).sum /
        ((scoresOf [⟨1, 100⟩, ⟨1, 100⟩] 1).length : ℚ) *
        ((scoresOf [⟨1, 100⟩, ⟨1, 100⟩] 1).length : ℚ) * (1 / 10)) :=
  totalXP_is_sum_based [⟨1, 100⟩, ⟨1, 100⟩] 1 (by decide)

/-! ### Analytics trend (C9) -/

/-- C9: the trend compares the mean of the 5 most recent scores against
the mean of the preceding 5, labelling "improving" above +5% relative
change, "declining" below −5%, else "stable"; and a history with zero or
one session yields "stable" with 0% change (no division by zero). -/
theorem trend_thresholds (scores : List ℚ) :
    (scores.length ≤ 1 →
      calculatePerformanceTrends scores =
        { trend := "stable", change := 0, recentAverage := none }) ∧
    (10 ≤ scores.length →
      ((scores.drop 5).take 5).sum / 5 ≠ 0 →
      (calculatePerformanceTrends scores).trend =
        (if 5 < ((scores.take 5).sum / 5 - ((scores.drop 5).take 5).sum / 5) /
              (((scores.drop 5).take 5).sum / 5) * 100 then "improving"
         else if ((scores.take 5).sum / 5 - ((scores.drop 5).take 5).sum / 5) /
              (((scores.drop 5).take 5).sum / 5) * 100 < -5 then "declining"
         else "stable")) := by
  constructor
  · intro h
    unfold calculatePerformanceTrends
    rw [if_pos (by omega)]
  · intro hlen hold
    unfold calculatePerformanceTrends
    rw [if_neg (by omega)]
    have hr : (scores.take 5).length = 5 := by
      rw [List.length_take]
      omega
    have ho : ((scores.drop 5).take 5).length = 5 := by
      rw [List.length_take, List.length_drop]
      omega
    dsimp only
    rw [hr, ho]
    push_cast
    rw [if_neg (not_or_intro (by norm_num) hold)]

/-- Witness for C9: the empty history is stable, and a history of five
100s followed by five 50s is labelled improving. -/
theorem trend_thresholds_witness :
    calculatePerformanceTrends [] =
      { trend := "stable", change := 0, recentAverage := none } ∧
    (calculatePerformanceTrends
        [100, 100, 100, 100, 100, 50, 50, 50, 50, 50]).trend = "improving" := by
  constructor
  · exact (trend_thresholds []).1 (by decide)
  · have h := (trend_thresholds
        [100, 100, 100, 100, 100, 50, 50, 50, 50, 50]).2 (by decide)
      (by norm_num)
    rw [h]
    norm_num

end MindMeld
